import Mathlib

/-!
# Verification of the stimulus indexing and tuple-generation engine

A shallow embedding of the core of `data.py` from the saycam-shape-bias
repository: the classes `GeirhosStyleTransferDataset`, `GeirhosTriplets`
and `FakeStimTrials`.  Filenames are Lean `String`s; filesystem storage is
a list of directory entries in glob-enumeration order; Python dictionaries
are association lists with Python's insert-or-overwrite semantics (an
existing key keeps its position, a fresh key is appended); JSON
serialisation of string-valued records is modelled as the identity on the
structured value.
-/

/-! ## Python string primitives

The source parses filenames with `str.split`, `str.replace`, `str.isdigit`
and glob patterns.  We re-implement these operations over `List Char` with
structural recursion so that concrete instances evaluate by `decide`.
-/

/-- Python `s.split(sep)` for a single-character separator:
`"a-b".split("-") == ["a","b"]`, `"".split("-") == [""]`. -/
def pySplitChar (sep : Char) : List Char → List (List Char)
  | [] => [[]]
  | c :: cs =>
    if c = sep then [] :: pySplitChar sep cs
    else
      match pySplitChar sep cs with
      | [] => [[c]]
      | h :: t => (c :: h) :: t

/-- Auxiliary for `pyReplaceEmpty`; the fuel is the length of the string,
which suffices because every step consumes at least one character. -/
def pyReplaceEmptyAux (pat : List Char) : Nat → List Char → List Char
  | 0, s => s
  | _ + 1, [] => []
  | fuel + 1, c :: cs =>
    if pat ≠ [] && pat.isPrefixOf (c :: cs) then
      pyReplaceEmptyAux pat fuel ((c :: cs).drop pat.length)
    else
      c :: pyReplaceEmptyAux pat fuel cs

/-- Python `s.replace(pat, '')`: every non-overlapping occurrence of `pat`
is removed, scanning left to right. -/
def pyReplaceEmpty (pat s : List Char) : List Char :=
  pyReplaceEmptyAux pat s.length s

/-- Python `''.join([i for i in s if not i.isdigit()])`. -/
def stripDigits (s : List Char) : List Char :=
  s.filter (fun c => !c.isDigit)

/-- The glob pattern `<pre>*<suf>` matched against a path component:
the string decomposes as `pre ++ middle ++ suf`. -/
def globPS (pre suf s : List Char) : Bool :=
  pre.isPrefixOf s && suf.isSuffixOf (s.drop pre.length)

/-! ## Python dictionaries -/

/-- Python dict assignment `d[k] = v`: overwrite in place if the key is
present, append otherwise. -/
def dinsert {α : Type} (k : String) (v : α) (d : List (String × α)) :
    List (String × α) :=
  if d.any (fun p => p.1 == k) then
    d.map (fun p => if p.1 == k then (k, v) else p)
  else
    d ++ [(k, v)]

/-- Python `d.keys()` in insertion order. -/
def dkeys {α : Type} (d : List (String × α)) : List String :=
  d.map Prod.fst

/-! ## Style-transfer stimuli: parsing and the index

`glob('stimuli-shape/style-transfer/*/*.png')` enumerates files grouped in
per-shape directories; a storage entry records the directory component
(`image[2]` after splitting the path on `/`) and the basename (`image[3]`).
-/

/-- One file found by the style-transfer glob: `dir` is the shape-class
directory name, `file` the PNG basename. -/
structure GStim where
  dir : String
  file : String
deriving DecidableEq, Repr

/-- The per-image attribute record stored in `shape_classes`
(`GeirhosStyleTransferDataset.__init__` / `GeirhosTriplets.__init__`). -/
structure GRec where
  shape : String
  texture : String
  shape_spec : String
  texture_spec : String
  dir : String
deriving DecidableEq, Repr

/-- `image[3].split('-')[1].replace('.png', '')` — the specific texture
instance.  Python raises IndexError when the basename has no `-`;
well-formed style-transfer names always do, and we default to `""`. -/
def gTextureSpec (file : String) : String :=
  ⟨pyReplaceEmpty ".png".data (((pySplitChar '-' file.data).getD 1 []))⟩

/-- `image[3].split('-')[0]` — the specific shape instance. -/
def gShapeSpec (file : String) : String :=
  ⟨(pySplitChar '-' file.data).getD 0 []⟩

/-- The attribute record parsed from one storage entry
(lines 215–219 of `data.py`): the shape class is the directory name, the
texture class is the texture instance with digits stripped. -/
def gParse (e : GStim) : GRec :=
  { shape := e.dir
    texture := ⟨stripDigits (gTextureSpec e.file).data⟩
    shape_spec := gShapeSpec e.file
    texture_spec := gTextureSpec e.file
    dir := "stimuli-shape/style-transfer/" ++ e.dir ++ "/" ++ e.file }

/-- Building `shape_classes` from storage: every globbed image whose shape
class differs from its texture class is inserted under its basename
(the cue-conflict filter, lines 214–227 of `data.py`). -/
def gBuildIndex (storage : List GStim) : List (String × GRec) :=
  storage.foldl
    (fun acc e =>
      if (gParse e).shape ≠ (gParse e).texture then
        dinsert e.file (gParse e) acc
      else acc)
    []

/-! ## Style-transfer match finding and triplet enumeration

`GeirhosTriplets.__init__`, lines 240–275.  Shape matches come from the
glob `shape_dir + '/' + shape + '/' + shape_spec + '*.png'`, texture
matches from `shape_dir + '/*/*' + texture_spec + '.png'`; in both cases
the basename is kept when it differs from the anchor and is a key of
`shape_classes`.  The driver constructs `GeirhosTriplets` with
`shape_dir = 'stimuli-shape/style-transfer'`, the directory the index was
built from, so both globs run over the same storage list.
-/

/-- Shape matches for anchor `image` with record `r` (lines 254–258):
files of the anchor's shape directory whose basename extends the anchor's
`shape_spec`, kept when distinct from the anchor and present in the index. -/
def gShapeMatches (storage : List GStim) (idx : List (String × GRec))
    (image : String) (r : GRec) : List String :=
  ((storage.filter
      (fun e => e.dir == r.shape && globPS r.shape_spec.data ".png".data e.file.data)).map
    (fun e => e.file)).filter
    (fun b => !(b == image) && (dkeys idx).contains b)

/-- Texture matches for anchor `image` with record `r` (lines 259–263):
files of any directory whose basename ends in the anchor's `texture_spec`
followed by `.png`, kept when distinct from the anchor and indexed. -/
def gTextureMatches (storage : List GStim) (idx : List (String × GRec))
    (image : String) (r : GRec) : List String :=
  ((storage.filter
      (fun e => globPS [] (r.texture_spec ++ ".png").data e.file.data)).map
    (fun e => e.file)).filter
    (fun b => !(b == image) && (dkeys idx).contains b)

/-- The per-anchor entry of `triplets_by_image`. -/
structure GTripRec where
  shapeMatches : List String
  textureMatches : List String
  triplets : List (String × String × String)
deriving DecidableEq, Repr

/-- One anchor's matches and triplets (lines 249–269): the triplet list is
the full nested product of the two match lists, shape match outer, with no
further filtering. -/
def gAnchor (storage : List GStim) (idx : List (String × GRec))
    (image : String) (r : GRec) : GTripRec :=
  let sm := gShapeMatches storage idx image r
  let tm := gTextureMatches storage idx image r
  { shapeMatches := sm
    textureMatches := tm
    triplets := sm.flatMap (fun s => tm.map (fun t => (image, s, t))) }

/-- `triplets_by_image` as generated on a cache miss, anchors in index-key
order (line 244; dictionary keys are unique, so iterating the keys and
looking each one up visits exactly the index's key-record pairs). -/
def gTripletsByImage (storage : List GStim) : List (String × GTripRec) :=
  let idx := gBuildIndex storage
  idx.map (fun p => (p.1, gAnchor storage idx p.1 p.2))

/-- `all_triplets`: the concatenation, in anchor order, of the per-anchor
triplet lists (line 269 appends inside the same nested loops). -/
def gAllTriplets (storage : List GStim) : List (String × String × String) :=
  (gTripletsByImage storage).flatMap (fun p => p.2.triplets)

/-! ## Fake stimuli: parsing, index, match finding, trials

`FakeStimTrials.__init__`, lines 309–426.  The glob
`fake_dir + '/*.png'` enumerates flat basenames; `image_dir.split('/')[2]`
recovers the basename for the default `fake_dir = 'stimuli-shape/fake'`.
-/

/-- The per-image record stored in `all_stims` (lines 350–354). -/
structure FRec where
  shape : String
  texture : String
  color : String
  dir : String
deriving DecidableEq, Repr

/-- `image.replace('.png', '').split('_')` — the `[shape, texture, color]`
field list (line 344). -/
def fSpecs (image : String) : List String :=
  (pySplitChar '_' (pyReplaceEmpty ".png".data image.data)).map (fun l => ⟨l⟩)

/-- Building `all_stims` plus the list of deleted image paths
(lines 342–354): a file any of whose fields is `'x'` or `'X'` is removed
from storage and skipped; the rest are indexed by basename.  The record
fields read `specs[0..2]` positionally (IndexError in Python when fewer
than three fields survive; we default to `""`). -/
def fBuild (fakeDir : String) (storage : List String) :
    List (String × FRec) × List String :=
  storage.foldl
    (fun acc image =>
      let specs := fSpecs image
      if specs.contains "x" || specs.contains "X" then
        (acc.1, acc.2 ++ [fakeDir ++ "/" ++ image])
      else
        (dinsert image
          { shape := specs.getD 0 ""
            texture := specs.getD 1 ""
            color := specs.getD 2 ""
            dir := fakeDir ++ "/" ++ image } acc.1,
         acc.2))
    ([], [])

/-- The shape-match predicate of lines 382–390, for anchor `a` and
candidate `b`, attributes read from the index by key: `b` differs from
`a`, shares its shape, and differs in texture and in color. -/
def fShapePred (stims : List (String × FRec)) (a b : String) : Bool :=
  match List.lookup a stims, List.lookup b stims with
  | some ra, some rb =>
    !(b == a) && rb.shape == ra.shape && !(rb.texture == ra.texture)
      && !(rb.color == ra.color)
  | _, _ => false

/-- The texture-match predicate of lines 391–399. -/
def fTexturePred (stims : List (String × FRec)) (a b : String) : Bool :=
  match List.lookup a stims, List.lookup b stims with
  | some ra, some rb =>
    !(b == a) && rb.texture == ra.texture && !(rb.shape == ra.shape)
      && !(rb.color == ra.color)
  | _, _ => false

/-- The color-match predicate of lines 400–408. -/
def fColorPred (stims : List (String × FRec)) (a b : String) : Bool :=
  match List.lookup a stims, List.lookup b stims with
  | some ra, some rb =>
    !(b == a) && rb.color == ra.color && !(rb.shape == ra.shape)
      && !(rb.texture == ra.texture)
  | _, _ => false

/-- The per-anchor entry of `trials_by_image`. -/
structure FTrialRec where
  shapeMatches : List String
  textureMatches : List String
  colorMatches : List String
  trials : List (String × String × String × String)
deriving DecidableEq, Repr

/-- One anchor's matches and trials (lines 370–420): each match list scans
the full key list with its predicate; the trial list is the nested product
skipping a texture match equal to the shape match and a color match equal
to either (lines 411–420). -/
def fAnchor (stims : List (String × FRec)) (image : String) : FTrialRec :=
  let sm := (dkeys stims).filter (fShapePred stims image)
  let tm := (dkeys stims).filter (fTexturePred stims image)
  let cm := (dkeys stims).filter (fColorPred stims image)
  { shapeMatches := sm
    textureMatches := tm
    colorMatches := cm
    trials :=
      sm.flatMap (fun s =>
        tm.flatMap (fun t =>
          if t == s then []
          else
            (cm.filter (fun c => !(c == t || c == s))).map
              (fun c => (image, s, t, c)))) }

/-- `trials_by_image` as generated on a cache miss, anchors in key order
(line 370). -/
def fTrialsByImage (stims : List (String × FRec)) :
    List (String × FTrialRec) :=
  (dkeys stims).map (fun image => (image, fAnchor stims image))

/-- `all_trials`: concatenation of the per-anchor trial lists in anchor
order (line 420). -/
def fAllTrials (stims : List (String × FRec)) :
    List (String × String × String × String) :=
  (fTrialsByImage stims).flatMap (fun p => p.2.trials)

/-! ## Positional access

`GeirhosStyleTransferDataset.__getitem__` (line 120) sorts the key set
before indexing; `FakeStimTrials.getitem` with an integer argument
(lines 438–439) indexes `list(self.all_stims.keys())` directly.  Python
sorts strings lexicographically by code point; `lexLe` is that order, and
`pySorted` is any correct sort with respect to it (`sorted` in Python,
insertion sort here — the sorted permutation is unique).  Image loading
and transforms are the excluded collaborators; we model the selection of
the stimulus name.
-/

/-- Lexicographic code-point order on character lists, Python's `<=` on
strings. -/
def lexLe : List Char → List Char → Bool
  | [], _ => true
  | _ :: _, [] => false
  | a :: as, b :: bs =>
    if a < b then true
    else if b < a then false
    else lexLe as bs

/-- Python's `<=` on strings as a relation. -/
def strLe (a b : String) : Prop := lexLe a.data b.data = true

instance : DecidableRel strLe := fun a b => by
  unfold strLe; infer_instance

/-- Python `sorted(keys)`. -/
def pySorted (keys : List String) : List String :=
  keys.insertionSort strLe

/-- The stimulus name selected by
`GeirhosStyleTransferDataset.__getitem__(idx)` (lines 120–122):
`sorted([key for key in self.shape_classes.keys()])[idx]`.  `none` models
Python's IndexError on an out-of-range index. -/
def gGetitemName (shapeClasses : List (String × GRec)) (idx : Nat) :
    Option String :=
  (pySorted (dkeys shapeClasses))[idx]?

/-- The stimulus name selected by `FakeStimTrials.getitem(trial)` for an
integer argument (lines 438–439): `list(self.all_stims.keys())[trial]`. -/
def fGetitemName (allStims : List (String × FRec)) (idx : Nat) :
    Option String :=
  (dkeys allStims)[idx]?

/-! ## Persistence and the cache-miss fallback

The `try: json.load(...) except FileNotFoundError:` pattern is modelled
with an `Option` for the persisted file; JSON (de)serialisation of the
string-valued structures is the identity on the structured value.
-/

/-- `gLoadOrBuildIndex cache storage` is `GeirhosTriplets.__init__` lines
208–231 (and identically `GeirhosStyleTransferDataset.__init__` lines
80–103): a present file is used as-is, a missing one triggers a full
rebuild from storage followed by a dump. -/
def gLoadOrBuildIndex (cache : Option (List (String × GRec)))
    (storage : List GStim) : List (String × GRec) :=
  match cache with
  | some m => m
  | none => gBuildIndex storage

/-- `FakeStimTrials.__init__` lines 335–358, same pattern for the fake
index. -/
def fLoadOrBuildIndex (cache : Option (List (String × FRec)))
    (fakeDir : String) (storage : List String) : List (String × FRec) :=
  match cache with
  | some m => m
  | none => (fBuild fakeDir storage).1

/-- A value of the persisted corpus file `geirhos_triplets.json`: every
anchor key holds a match/triplet record, the reserved key `"all"` holds
the flattened triplet list. -/
inductive GCorpusVal : Type
  | record (r : GTripRec)
  | flat (l : List (String × String × String))
deriving DecidableEq, Repr

/-- Persisting the corpus (lines 271–275): `triplets_by_image['all'] =
self.all_triplets` followed by `json.dump`. -/
def gSaveCorpus (tbi : List (String × GTripRec))
    (allT : List (String × String × String)) : List (String × GCorpusVal) :=
  dinsert "all" (.flat allT) (tbi.map (fun p => (p.1, .record p.2)))

/-- Reloading the corpus (lines 236–238): `all_triplets =
triplets_by_image['all']` (`none` models the KeyError on a file without
the reserved key) and `triplets_by_image.pop('all')` (keys are unique, so
removing every `"all"` entry removes exactly one). -/
def gLoadCorpus (d : List (String × GCorpusVal)) :
    List (String × GCorpusVal) × Option GCorpusVal :=
  (d.filter (fun p => !(p.1 == "all")), List.lookup "all" d)

/-- `GeirhosTriplets.__init__` lines 234–275: a present corpus file is
loaded and its `"all"` entry split off with no regeneration; a missing one
triggers generation from the index, after which the in-memory map holds
the `"all"` entry it was dumped with. -/
def gLoadOrBuildCorpus (cache : Option (List (String × GCorpusVal)))
    (storage : List GStim) :
    List (String × GCorpusVal) × Option GCorpusVal :=
  match cache with
  | some d => gLoadCorpus d
  | none =>
    (gSaveCorpus (gTripletsByImage storage) (gAllTriplets storage),
     some (.flat (gAllTriplets storage)))

/-- `json.dump` then `json.load` of the index map: the identity on the
structured value (string-valued records round-trip through JSON
faithfully). -/
def gPersistIndex (m : List (String × GRec)) : List (String × GRec) := m

/-! ## Closed-form tuple counting

Reference quantities following the spec's closed-form count ("sum over
anchors of |M_shape| × |M_texture| × (|M_color| or 1) minus tuples dropped
by the distinctness filter"), defined from the match sets alone,
independently of generation order.
-/

/-- The unfiltered Cartesian product of the three match sets. -/
def fCartProd (sm tm cm : List String) : List (String × String × String) :=
  sm.flatMap (fun s => tm.flatMap (fun t => cm.map (fun c => (s, t, c))))

/-- A product element failing pairwise distinctness of the three match
roles (the tuples the trial loop of lines 411–420 drops). -/
def fDistinctFail (q : String × String × String) : Bool :=
  q.2.1 == q.1 || q.2.2 == q.2.1 || q.2.2 == q.1

/-- How many product elements the pairwise-distinctness filter drops. -/
def fDroppedCount (sm tm cm : List String) : Nat :=
  ((fCartProd sm tm cm).filter fDistinctFail).length

/-- The sentinel test of line 346: some field of the parsed name is the
"unassigned" marker `'x'` or `'X'`. -/
def fSentinel (image : String) : Bool :=
  (fSpecs image).contains "x" || (fSpecs image).contains "X"

/-! ## Helper lemmas on the dictionary model -/

theorem mem_dinsert {α : Type} {k : String} {v : α} {d : List (String × α)}
    {q : String × α} (h : q ∈ dinsert k v d) : q ∈ d ∨ q = (k, v) := by
  unfold dinsert at h
  split at h
  · rcases List.mem_map.mp h with ⟨p, hp, he⟩
    by_cases hk : p.1 == k
    · simp only [hk, if_pos] at he
      right; exact he.symm
    · simp only [hk, if_neg, Bool.false_eq_true, not_false_eq_true] at he
      left; exact he ▸ hp
  · rcases List.mem_append.mp h with h1 | h1
    · left; exact h1
    · right; simpa using h1

theorem mem_dkeys_dinsert {α : Type} {k k' : String} {v : α}
    {d : List (String × α)} (h : k' ∈ dkeys (dinsert k v d)) :
    k' ∈ dkeys d ∨ k' = k := by
  rcases List.mem_map.mp h with ⟨q, hq, he⟩
  rcases mem_dinsert hq with h1 | h1
  · left; exact he ▸ List.mem_map_of_mem Prod.fst h1
  · right; rw [← he, h1]

theorem dinsert_of_not_mem {α : Type} {k : String} {v : α}
    {d : List (String × α)} (h : k ∉ dkeys d) :
    dinsert k v d = d ++ [(k, v)] := by
  unfold dinsert
  have : d.any (fun p => p.1 == k) = false := by
    rw [List.any_eq_false]
    intro p hp
    simp only [beq_iff_eq]
    intro he
    exact h (he ▸ List.mem_map_of_mem Prod.fst hp)
  rw [this]
  simp

theorem lookup_append_right {α : Type} {k : String}
    {d l : List (String × α)} (h : k ∉ dkeys d) :
    List.lookup k (d ++ l) = List.lookup k l := by
  induction d with
  | nil => rfl
  | cons p rest ih =>
    simp only [dkeys, List.map_cons, List.mem_cons, not_or] at h
    have hk : (k == p.1) = false := by
      simp only [beq_eq_false_iff_ne, ne_eq]; exact h.1
    rw [List.cons_append]
    have hstep : List.lookup k (p :: (rest ++ l)) = List.lookup k (rest ++ l) := by
      cases p with
      | mk a b => simp [List.lookup_cons, hk]
    rw [hstep]
    exact ih h.2

/-! ## Invariants of the style-transfer index build -/

theorem gBuildIndex_fold_rec :
    ∀ (storage : List GStim) (acc : List (String × GRec)),
      (∀ q ∈ acc, q.2.shape ≠ q.2.texture) →
      ∀ q ∈ storage.foldl
          (fun acc e =>
            if (gParse e).shape ≠ (gParse e).texture then
              dinsert e.file (gParse e) acc
            else acc) acc,
        q.2.shape ≠ q.2.texture := by
  intro storage
  induction storage with
  | nil => intro acc h q hq; exact h q hq
  | cons e rest ih =>
    intro acc h q hq
    simp only [List.foldl_cons] at hq
    refine ih _ ?_ q hq
    intro q' hq'
    by_cases hg : (gParse e).shape ≠ (gParse e).texture
    · rw [if_pos hg] at hq'
      rcases mem_dinsert hq' with h1 | h1
      · exact h q' h1
      · rw [h1]; exact hg
    · rw [if_neg hg] at hq'
      exact h q' hq'

theorem gBuildIndex_fold_keys :
    ∀ (storage : List GStim) (acc : List (String × GRec)) (k : String),
      k ∈ dkeys (storage.foldl
          (fun acc e =>
            if (gParse e).shape ≠ (gParse e).texture then
              dinsert e.file (gParse e) acc
            else acc) acc) →
      k ∈ dkeys acc ∨
        ∃ e ∈ storage, e.file = k ∧ (gParse e).shape ≠ (gParse e).texture := by
  intro storage
  induction storage with
  | nil => intro acc k hk; exact Or.inl hk
  | cons e rest ih =>
    intro acc k hk
    simp only [List.foldl_cons] at hk
    rcases ih _ k hk with h1 | ⟨e', he', hf, hg⟩
    · by_cases hg : (gParse e).shape ≠ (gParse e).texture
      · rw [if_pos hg] at h1
        rcases mem_dkeys_dinsert h1 with h2 | h2
        · exact Or.inl h2
        · exact Or.inr ⟨e, List.mem_cons_self e rest, h2.symm, hg⟩
      · rw [if_neg hg] at h1
        exact Or.inl h1
    · exact Or.inr ⟨e', List.mem_cons_of_mem e he', hf, hg⟩

/-- C4: every stimulus in a freshly built style-transfer index satisfies
`shape ≠ texture`, and (given unique basenames, as dict keys are the
basenames) an image parsing to `shape = texture` contributes no index
entry — the build is total, the exclusion silent. -/
theorem C4_cue_conflict_filter :
    (∀ (storage : List GStim) (q : String × GRec),
      q ∈ gBuildIndex storage → q.2.shape ≠ q.2.texture) ∧
    (∀ (storage : List GStim) (e : GStim),
      (storage.map GStim.file).Nodup → e ∈ storage →
      (gParse e).shape = (gParse e).texture →
      e.file ∉ dkeys (gBuildIndex storage)) := by
  constructor
  · intro storage q hq
    exact gBuildIndex_fold_rec storage [] (by simp) q hq
  · intro storage e hnd he hg hk
    rcases gBuildIndex_fold_keys storage [] e.file hk with h1 | ⟨e', he', hf, hne⟩
    · simp [dkeys] at h1
    · have : e' = e := List.inj_on_of_nodup_map hnd he' he hf
      exact hne (this ▸ hg)

/-- Witness for C4 at a concrete two-image storage: the cue-conflict image
is indexed with distinct classes, the non-conflict image is excluded. -/
theorem C4_witness :
    (("cat1-truck3.png",
        gParse (⟨"cat", "cat1-truck3.png"⟩ : GStim)) ∈
          gBuildIndex [⟨"cat", "cat1-truck3.png"⟩, ⟨"cat", "cat1-cat2.png"⟩] →
      (gParse (⟨"cat", "cat1-truck3.png"⟩ : GStim)).shape ≠
        (gParse (⟨"cat", "cat1-truck3.png"⟩ : GStim)).texture) ∧
    "cat1-cat2.png" ∉
      dkeys (gBuildIndex [⟨"cat", "cat1-truck3.png"⟩, ⟨"cat", "cat1-cat2.png"⟩]) :=
  ⟨fun hm => C4_cue_conflict_filter.1 _ _ hm,
   C4_cue_conflict_filter.2 [⟨"cat", "cat1-truck3.png"⟩, ⟨"cat", "cat1-cat2.png"⟩]
     ⟨"cat", "cat1-cat2.png"⟩ (by decide) (by decide) (by decide)⟩

/-! ## Invariants of the fake index build -/

theorem getD_ne_of_not_contains {l : List String} {a d : String} {i : Nat}
    (h : l.contains a = false) (hd : d ≠ a) : l.getD i d ≠ a := by
  rcases Nat.lt_or_ge i l.length with hi | hi
  · rw [List.getD_eq_getElem l d hi]
    intro he
    have hm : a ∈ l := he ▸ List.getElem_mem hi
    rw [show l.contains a = l.elem a from rfl, List.elem_iff.mpr hm] at h
    cases h
  · rw [List.getD_eq_default l d hi]
    exact hd

/-- The record inserted by `fBuild` for a non-sentinel name has no
sentinel field. -/
theorem fBuild_rec_no_sentinel {image : String}
    (h : fSentinel image = false) (a : String) (ha : a = "x" ∨ a = "X") :
    (fSpecs image).getD 0 "" ≠ a ∧ (fSpecs image).getD 1 "" ≠ a ∧
      (fSpecs image).getD 2 "" ≠ a := by
  unfold fSentinel at h
  rw [Bool.or_eq_false_iff] at h
  have hc : (fSpecs image).contains a = false := by
    rcases ha with rfl | rfl
    · exact h.1
    · exact h.2
  have hd : ("" : String) ≠ a := by
    rcases ha with rfl | rfl <;> decide
  exact ⟨getD_ne_of_not_contains hc hd, getD_ne_of_not_contains hc hd,
    getD_ne_of_not_contains hc hd⟩

theorem fBuild_fold_rec (fakeDir : String) :
    ∀ (storage : List String) (acc : List (String × FRec) × List String),
      (∀ q ∈ acc.1, ∀ a : String, a = "x" ∨ a = "X" →
        q.2.shape ≠ a ∧ q.2.texture ≠ a ∧ q.2.color ≠ a) →
      ∀ q ∈ (storage.foldl
          (fun acc image =>
            let specs := fSpecs image
            if specs.contains "x" || specs.contains "X" then
              (acc.1, acc.2 ++ [fakeDir ++ "/" ++ image])
            else
              (dinsert image
                { shape := specs.getD 0 ""
                  texture := specs.getD 1 ""
                  color := specs.getD 2 ""
                  dir := fakeDir ++ "/" ++ image } acc.1,
               acc.2)) acc).1,
        ∀ a : String, a = "x" ∨ a = "X" →
          q.2.shape ≠ a ∧ q.2.texture ≠ a ∧ q.2.color ≠ a := by
  intro storage
  induction storage with
  | nil => intro acc h q hq; exact h q hq
  | cons image rest ih =>
    intro acc h q hq
    simp only [List.foldl_cons] at hq
    refine ih _ ?_ q hq
    intro q' hq' a ha
    by_cases hs : ((fSpecs image).contains "x" || (fSpecs image).contains "X") = true
    · simp only [hs, if_pos] at hq'
      exact h q' hq' a ha
    · simp only [hs, if_neg, Bool.false_eq_true, not_false_eq_true] at hq'
      rcases mem_dinsert hq' with h1 | h1
      · exact h q' h1 a ha
      · rw [h1]
        exact fBuild_rec_no_sentinel (Bool.not_eq_true _ ▸ hs) a ha

theorem fBuild_fold_keys (fakeDir : String) :
    ∀ (storage : List String) (acc : List (String × FRec) × List String),
      (∀ k ∈ dkeys acc.1, fSentinel k = false) →
      ∀ k ∈ dkeys (storage.foldl
          (fun acc image =>
            let specs := fSpecs image
            if specs.contains "x" || specs.contains "X" then
              (acc.1, acc.2 ++ [fakeDir ++ "/" ++ image])
            else
              (dinsert image
                { shape := specs.getD 0 ""
                  texture := specs.getD 1 ""
                  color := specs.getD 2 ""
                  dir := fakeDir ++ "/" ++ image } acc.1,
               acc.2)) acc).1,
        fSentinel k = false := by
  intro storage
  induction storage with
  | nil => intro acc h k hk; exact h k hk
  | cons image rest ih =>
    intro acc h k hk
    simp only [List.foldl_cons] at hk
    refine ih _ ?_ k hk
    intro k' hk'
    by_cases hs : ((fSpecs image).contains "x" || (fSpecs image).contains "X") = true
    · simp only [hs, if_pos] at hk'
      exact h k' hk'
    · simp only [hs, if_neg, Bool.false_eq_true, not_false_eq_true] at hk'
      rcases mem_dkeys_dinsert hk' with h1 | h1
      · exact h k' h1
      · rw [h1]
        unfold fSentinel
        exact Bool.not_eq_true _ ▸ hs

theorem fBuild_fold_deleted_mono (fakeDir : String) :
    ∀ (storage : List String) (acc : List (String × FRec) × List String)
      (x : String), x ∈ acc.2 →
      x ∈ (storage.foldl
          (fun acc image =>
            let specs := fSpecs image
            if specs.contains "x" || specs.contains "X" then
              (acc.1, acc.2 ++ [fakeDir ++ "/" ++ image])
            else
              (dinsert image
                { shape := specs.getD 0 ""
                  texture := specs.getD 1 ""
                  color := specs.getD 2 ""
                  dir := fakeDir ++ "/" ++ image } acc.1,
               acc.2)) acc).2 := by
  intro storage
  induction storage with
  | nil => intro acc x hx; exact hx
  | cons image rest ih =>
    intro acc x hx
    simp only [List.foldl_cons]
    refine ih _ x ?_
    by_cases hs : ((fSpecs image).contains "x" || (fSpecs image).contains "X") = true
    · simp only [hs, if_pos]
      exact List.mem_append_left _ hx
    · simp only [hs, if_neg, Bool.false_eq_true, not_false_eq_true]
      exact hx

theorem fBuild_fold_deleted (fakeDir : String) :
    ∀ (storage : List String) (acc : List (String × FRec) × List String)
      (name : String), name ∈ storage → fSentinel name = true →
      (fakeDir ++ "/" ++ name) ∈ (storage.foldl
          (fun acc image =>
            let specs := fSpecs image
            if specs.contains "x" || specs.contains "X" then
              (acc.1, acc.2 ++ [fakeDir ++ "/" ++ image])
            else
              (dinsert image
                { shape := specs.getD 0 ""
                  texture := specs.getD 1 ""
                  color := specs.getD 2 ""
                  dir := fakeDir ++ "/" ++ image } acc.1,
               acc.2)) acc).2 := by
  intro storage
  induction storage with
  | nil => intro acc name hn; cases hn
  | cons image rest ih =>
    intro acc name hn hsent
    simp only [List.foldl_cons]
    rcases List.mem_cons.mp hn with rfl | hn'
    · refine fBuild_fold_deleted_mono fakeDir rest _ _ ?_
      have hs : ((fSpecs name).contains "x" || (fSpecs name).contains "X") = true := hsent
      simp only [hs, if_pos]
      exact List.mem_append_right _ (List.mem_singleton_self _)
    · exact ih _ name hn' hsent

/-- C5: a fake stimulus any of whose parsed fields is the sentinel marker
(`'x'` or `'X'`) is never indexed and its backing file path is recorded as
deleted; every record in a freshly built fake index has no sentinel
attribute. -/
theorem C5_sentinel_excluded_and_deleted :
    (∀ (fakeDir : String) (storage : List String) (q : String × FRec),
      q ∈ (fBuild fakeDir storage).1 →
      ∀ a : String, a = "x" ∨ a = "X" →
        q.2.shape ≠ a ∧ q.2.texture ≠ a ∧ q.2.color ≠ a) ∧
    (∀ (fakeDir : String) (storage : List String) (name : String),
      name ∈ storage → fSentinel name = true →
      name ∉ dkeys (fBuild fakeDir storage).1 ∧
        (fakeDir ++ "/" ++ name) ∈ (fBuild fakeDir storage).2) := by
  constructor
  · intro fakeDir storage q hq a ha
    exact fBuild_fold_rec fakeDir storage ([], []) (by simp) q hq a ha
  · intro fakeDir storage name hn hsent
    constructor
    · intro hk
      rw [fBuild_fold_keys fakeDir storage ([], []) (by simp [dkeys]) name hk] at hsent
      cases hsent
    · exact fBuild_fold_deleted fakeDir storage ([], []) name hn hsent

/-- Witness for C5: in a two-file fake storage the sentinel-marked file
`s9_x_c3.png` is excluded from the index and its path deleted. -/
theorem C5_witness :
    "s9_x_c3.png" ∉
        dkeys (fBuild "stimuli-shape/fake" ["s1_t1_c1.png", "s9_x_c3.png"]).1 ∧
      ("stimuli-shape/fake" ++ "/" ++ "s9_x_c3.png") ∈
        (fBuild "stimuli-shape/fake" ["s1_t1_c1.png", "s9_x_c3.png"]).2 :=
  C5_sentinel_excluded_and_deleted.2 "stimuli-shape/fake"
    ["s1_t1_c1.png", "s9_x_c3.png"] "s9_x_c3.png" (by decide) (by decide)

/-! ## What the style-transfer match finder guarantees -/

theorem mem_gShapeMatches {storage : List GStim} {idx : List (String × GRec)}
    {image : String} {r : GRec} {b : String}
    (h : b ∈ gShapeMatches storage idx image r) :
    b ≠ image ∧ b ∈ dkeys idx ∧
      r.shape_spec.data.isPrefixOf b.data = true ∧
      ∃ e ∈ storage, e.file = b ∧ e.dir = r.shape := by
  unfold gShapeMatches at h
  rcases List.mem_filter.mp h with ⟨h1, h2⟩
  rw [Bool.and_eq_true, Bool.not_eq_true', beq_eq_false_iff_ne] at h2
  rcases List.mem_map.mp h1 with ⟨e, he, hfe⟩
  rcases List.mem_filter.mp he with ⟨hes, hcond⟩
  rw [Bool.and_eq_true, beq_iff_eq] at hcond
  have hpre : r.shape_spec.data.isPrefixOf e.file.data = true := by
    have hg := hcond.2
    unfold globPS at hg
    rw [Bool.and_eq_true] at hg
    exact hg.1
  refine ⟨h2.1, ?_, hfe ▸ hpre, e, hes, hfe, hcond.1⟩
  have := h2.2
  rwa [show ((dkeys idx).contains b = (dkeys idx).elem b) from rfl,
    List.elem_iff] at this

theorem mem_gTextureMatches {storage : List GStim} {idx : List (String × GRec)}
    {image : String} {r : GRec} {b : String}
    (h : b ∈ gTextureMatches storage idx image r) :
    b ≠ image ∧ b ∈ dkeys idx ∧
      (r.texture_spec ++ ".png").data.isSuffixOf b.data = true ∧
      ∃ e ∈ storage, e.file = b := by
  unfold gTextureMatches at h
  rcases List.mem_filter.mp h with ⟨h1, h2⟩
  rw [Bool.and_eq_true, Bool.not_eq_true', beq_eq_false_iff_ne] at h2
  rcases List.mem_map.mp h1 with ⟨e, he, hfe⟩
  rcases List.mem_filter.mp he with ⟨hes, hcond⟩
  have hsuf : (r.texture_spec ++ ".png").data.isSuffixOf e.file.data = true := by
    unfold globPS at hcond
    rw [Bool.and_eq_true] at hcond
    simpa using hcond.2
  refine ⟨h2.1, ?_, hfe ▸ hsuf, e, hes, hfe⟩
  have := h2.2
  rwa [show ((dkeys idx).contains b = (dkeys idx).elem b) from rfl,
    List.elem_iff] at this

theorem mem_gAnchor_triplets {storage : List GStim}
    {idx : List (String × GRec)} {image : String} {r : GRec}
    {x s t : String} (h : (x, s, t) ∈ (gAnchor storage idx image r).triplets) :
    x = image ∧ s ∈ gShapeMatches storage idx image r ∧
      t ∈ gTextureMatches storage idx image r := by
  simp only [gAnchor] at h
  rcases List.mem_flatMap.mp h with ⟨s', hs', hmem⟩
  rcases List.mem_map.mp hmem with ⟨t', ht', he⟩
  rw [Prod.mk.injEq, Prod.mk.injEq] at he
  obtain ⟨h1, h2, h3⟩ := he
  exact ⟨h1.symm, h2 ▸ hs', h3 ▸ ht'⟩

/-- C1 counterexample: in the built triplet structure over a three-image
storage, anchor `cat1-truck3.png` (shape `cat`, texture `truck`) gets
`cat1-truck2.png` as a shape match although its texture is also `truck`,
and `cat2-truck3.png` as a texture match although its shape is also `cat`:
the glob-based match finder never compares the non-matched attribute. -/
theorem C1_counterexample :
    ((gTripletsByImage
        [⟨"cat", "cat1-truck3.png"⟩, ⟨"cat", "cat1-truck2.png"⟩,
          ⟨"cat", "cat2-truck3.png"⟩]).map
      (fun p => (p.1, p.2.shapeMatches, p.2.textureMatches)) =
      [("cat1-truck3.png", ["cat1-truck2.png"], ["cat2-truck3.png"]),
        ("cat1-truck2.png", ["cat1-truck3.png"], []),
        ("cat2-truck3.png", [], ["cat1-truck3.png"])]) ∧
    (List.lookup "cat1-truck3.png"
        (gBuildIndex
          [⟨"cat", "cat1-truck3.png"⟩, ⟨"cat", "cat1-truck2.png"⟩,
            ⟨"cat", "cat2-truck3.png"⟩])).map GRec.texture = some "truck" ∧
    (List.lookup "cat1-truck2.png"
        (gBuildIndex
          [⟨"cat", "cat1-truck3.png"⟩, ⟨"cat", "cat1-truck2.png"⟩,
            ⟨"cat", "cat2-truck3.png"⟩])).map GRec.texture = some "truck" ∧
    (List.lookup "cat1-truck3.png"
        (gBuildIndex
          [⟨"cat", "cat1-truck3.png"⟩, ⟨"cat", "cat1-truck2.png"⟩,
            ⟨"cat", "cat2-truck3.png"⟩])).map GRec.shape = some "cat" ∧
    (List.lookup "cat2-truck3.png"
        (gBuildIndex
          [⟨"cat", "cat1-truck3.png"⟩, ⟨"cat", "cat1-truck2.png"⟩,
            ⟨"cat", "cat2-truck3.png"⟩])).map GRec.shape = some "cat" := by
  decide

/-- C1 (amended): for an anchor of the built style-transfer structure,
every shape match differs from the anchor, is indexed, extends the
anchor's `shape_spec` prefix and comes from the anchor's shape directory;
every texture match differs from the anchor, is indexed, and ends in the
anchor's `texture_spec` followed by `.png`.  The non-matched attribute
(texture of a shape match, shape of a texture match) is not constrained. -/
theorem C1_amended_matches :
    ∀ (storage : List GStim) (k : String) (r : GRec),
      (k, r) ∈ gBuildIndex storage →
      (∀ b ∈ (gAnchor storage (gBuildIndex storage) k r).shapeMatches,
        b ≠ k ∧ b ∈ dkeys (gBuildIndex storage) ∧
          r.shape_spec.data.isPrefixOf b.data = true ∧
          ∃ e ∈ storage, e.file = b ∧ e.dir = r.shape) ∧
      (∀ b ∈ (gAnchor storage (gBuildIndex storage) k r).textureMatches,
        b ≠ k ∧ b ∈ dkeys (gBuildIndex storage) ∧
          (r.texture_spec ++ ".png").data.isSuffixOf b.data = true) := by
  intro storage k r _
  constructor
  · intro b hb
    exact mem_gShapeMatches (by simpa [gAnchor] using hb)
  · intro b hb
    have h := mem_gTextureMatches (by simpa [gAnchor] using hb)
    exact ⟨h.1, h.2.1, h.2.2.1⟩

/-- Witness for `C1_amended_matches` at the three-image storage of the
counterexample. -/
theorem C1_witness :
    ("cat1-truck2.png" : String) ≠ "cat1-truck3.png" ∧
      "cat1-truck2.png" ∈
        dkeys (gBuildIndex
          [⟨"cat", "cat1-truck3.png"⟩, ⟨"cat", "cat1-truck2.png"⟩,
            ⟨"cat", "cat2-truck3.png"⟩]) ∧
      (gParse (⟨"cat", "cat1-truck3.png"⟩ : GStim)).shape_spec.data.isPrefixOf
          "cat1-truck2.png".data = true ∧
      ∃ e ∈ [(⟨"cat", "cat1-truck3.png"⟩ : GStim), ⟨"cat", "cat1-truck2.png"⟩,
          ⟨"cat", "cat2-truck3.png"⟩],
        e.file = "cat1-truck2.png" ∧
          e.dir = (gParse (⟨"cat", "cat1-truck3.png"⟩ : GStim)).shape :=
  (C1_amended_matches
      [⟨"cat", "cat1-truck3.png"⟩, ⟨"cat", "cat1-truck2.png"⟩,
        ⟨"cat", "cat2-truck3.png"⟩]
      "cat1-truck3.png" (gParse ⟨"cat", "cat1-truck3.png"⟩)
      (by decide)).1 "cat1-truck2.png" (by decide)

/-- C2 counterexample: over a storage whose instance labels overlap as
prefixes (`cat1` vs `cat12`), the anchor `cat1-truck3.png` receives
`cat12-truck3.png` both as shape match and texture match, and the built
corpus contains the triplet whose shape-match and texture-match roles are
the same stimulus — the enumerator never compares `s` with `t`. -/
theorem C2_counterexample :
    ("cat1-truck3.png", "cat12-truck3.png", "cat12-truck3.png") ∈
        gAllTriplets [⟨"cat", "cat1-truck3.png"⟩, ⟨"cat", "cat12-truck3.png"⟩] ∧
      gAllTriplets [⟨"cat", "cat1-truck3.png"⟩, ⟨"cat", "cat12-truck3.png"⟩] =
        [("cat1-truck3.png", "cat12-truck3.png", "cat12-truck3.png")] := by
  decide

/-- C2 (amended): in the built style-transfer corpus every triplet
`(x, s, t)` of an anchor's list has `x` equal to the anchor and
`s ≠ x`, `t ≠ x`; the two match roles, however, may coincide (`s = t` is
not excluded). -/
theorem C2_amended_triplet_distinctness :
    ∀ (storage : List GStim) (k : String) (rec : GTripRec) (x s t : String),
      (k, rec) ∈ gTripletsByImage storage → (x, s, t) ∈ rec.triplets →
      x = k ∧ s ≠ k ∧ t ≠ k := by
  intro storage k rec x s t hk ht
  unfold gTripletsByImage at hk
  rcases List.mem_map.mp hk with ⟨p, hp, he⟩
  rw [Prod.mk.injEq] at he
  obtain ⟨hk1, hk2⟩ := he
  subst hk1
  rw [← hk2] at ht
  obtain ⟨hx, hs, htm⟩ := mem_gAnchor_triplets ht
  exact ⟨hx, (mem_gShapeMatches hs).1, (mem_gTextureMatches htm).1⟩

/-- Witness for `C2_amended_triplet_distinctness` at the degenerate
triplet of the counterexample storage. -/
theorem C2_witness :
    ("cat1-truck3.png" : String) = "cat1-truck3.png" ∧
      ("cat12-truck3.png" : String) ≠ "cat1-truck3.png" ∧
      ("cat12-truck3.png" : String) ≠ "cat1-truck3.png" :=
  C2_amended_triplet_distinctness
    [⟨"cat", "cat1-truck3.png"⟩, ⟨"cat", "cat12-truck3.png"⟩]
    "cat1-truck3.png"
    (gAnchor [⟨"cat", "cat1-truck3.png"⟩, ⟨"cat", "cat12-truck3.png"⟩]
      (gBuildIndex [⟨"cat", "cat1-truck3.png"⟩, ⟨"cat", "cat12-truck3.png"⟩])
      "cat1-truck3.png" (gParse ⟨"cat", "cat1-truck3.png"⟩))
    "cat1-truck3.png" "cat12-truck3.png" "cat12-truck3.png"
    (by decide) (by decide)

/-! ## The fake match predicates, characterised and symmetric -/

theorem fShapePred_iff {stims : List (String × FRec)} {a b : String} :
    fShapePred stims a b = true ↔
      ∃ ra rb, List.lookup a stims = some ra ∧ List.lookup b stims = some rb ∧
        b ≠ a ∧ rb.shape = ra.shape ∧ rb.texture ≠ ra.texture ∧
        rb.color ≠ ra.color := by
  unfold fShapePred
  cases ha : List.lookup a stims <;> cases hb : List.lookup b stims <;>
    simp [Bool.and_eq_true, Bool.not_eq_true', beq_iff_eq,
      beq_eq_false_iff_ne, and_assoc]

theorem fTexturePred_iff {stims : List (String × FRec)} {a b : String} :
    fTexturePred stims a b = true ↔
      ∃ ra rb, List.lookup a stims = some ra ∧ List.lookup b stims = some rb ∧
        b ≠ a ∧ rb.texture = ra.texture ∧ rb.shape ≠ ra.shape ∧
        rb.color ≠ ra.color := by
  unfold fTexturePred
  cases ha : List.lookup a stims <;> cases hb : List.lookup b stims <;>
    simp [Bool.and_eq_true, Bool.not_eq_true', beq_iff_eq,
      beq_eq_false_iff_ne, and_assoc]

theorem fColorPred_iff {stims : List (String × FRec)} {a b : String} :
    fColorPred stims a b = true ↔
      ∃ ra rb, List.lookup a stims = some ra ∧ List.lookup b stims = some rb ∧
        b ≠ a ∧ rb.color = ra.color ∧ rb.shape ≠ ra.shape ∧
        rb.texture ≠ ra.texture := by
  unfold fColorPred
  cases ha : List.lookup a stims <;> cases hb : List.lookup b stims <;>
    simp [Bool.and_eq_true, Bool.not_eq_true', beq_iff_eq,
      beq_eq_false_iff_ne, and_assoc]

theorem fShapePred_symm {stims : List (String × FRec)} {a b : String} :
    fShapePred stims a b = true ↔ fShapePred stims b a = true := by
  rw [fShapePred_iff, fShapePred_iff]
  constructor
  · rintro ⟨ra, rb, h1, h2, h3, h4, h5, h6⟩
    exact ⟨rb, ra, h2, h1, Ne.symm h3, h4.symm, fun he => h5 he.symm,
      fun he => h6 he.symm⟩
  · rintro ⟨rb, ra, h1, h2, h3, h4, h5, h6⟩
    exact ⟨ra, rb, h2, h1, Ne.symm h3, h4.symm, fun he => h5 he.symm,
      fun he => h6 he.symm⟩

theorem fTexturePred_symm {stims : List (String × FRec)} {a b : String} :
    fTexturePred stims a b = true ↔ fTexturePred stims b a = true := by
  rw [fTexturePred_iff, fTexturePred_iff]
  constructor
  · rintro ⟨ra, rb, h1, h2, h3, h4, h5, h6⟩
    exact ⟨rb, ra, h2, h1, Ne.symm h3, h4.symm, fun he => h5 he.symm,
      fun he => h6 he.symm⟩
  · rintro ⟨rb, ra, h1, h2, h3, h4, h5, h6⟩
    exact ⟨ra, rb, h2, h1, Ne.symm h3, h4.symm, fun he => h5 he.symm,
      fun he => h6 he.symm⟩

theorem fColorPred_symm {stims : List (String × FRec)} {a b : String} :
    fColorPred stims a b = true ↔ fColorPred stims b a = true := by
  rw [fColorPred_iff, fColorPred_iff]
  constructor
  · rintro ⟨ra, rb, h1, h2, h3, h4, h5, h6⟩
    exact ⟨rb, ra, h2, h1, Ne.symm h3, h4.symm, fun he => h5 he.symm,
      fun he => h6 he.symm⟩
  · rintro ⟨rb, ra, h1, h2, h3, h4, h5, h6⟩
    exact ⟨ra, rb, h2, h1, Ne.symm h3, h4.symm, fun he => h5 he.symm,
      fun he => h6 he.symm⟩

theorem mem_fAnchor_shapeMatches {stims : List (String × FRec)}
    {a b : String} :
    b ∈ (fAnchor stims a).shapeMatches ↔
      b ∈ dkeys stims ∧ fShapePred stims a b = true := by
  show b ∈ (dkeys stims).filter (fShapePred stims a) ↔ _
  exact List.mem_filter

theorem mem_fAnchor_textureMatches {stims : List (String × FRec)}
    {a b : String} :
    b ∈ (fAnchor stims a).textureMatches ↔
      b ∈ dkeys stims ∧ fTexturePred stims a b = true := by
  show b ∈ (dkeys stims).filter (fTexturePred stims a) ↔ _
  exact List.mem_filter

theorem mem_fAnchor_colorMatches {stims : List (String × FRec)}
    {a b : String} :
    b ∈ (fAnchor stims a).colorMatches ↔
      b ∈ dkeys stims ∧ fColorPred stims a b = true := by
  show b ∈ (dkeys stims).filter (fColorPred stims a) ↔ _
  exact List.mem_filter

theorem mem_fAnchor_trials {stims : List (String × FRec)}
    {image x s t c : String}
    (h : (x, s, t, c) ∈ (fAnchor stims image).trials) :
    x = image ∧ s ∈ (fAnchor stims image).shapeMatches ∧
      t ∈ (fAnchor stims image).textureMatches ∧
      c ∈ (fAnchor stims image).colorMatches ∧
      t ≠ s ∧ c ≠ t ∧ c ≠ s := by
  simp only [fAnchor] at h
  rcases List.mem_flatMap.mp h with ⟨s', hs', h2⟩
  rcases List.mem_flatMap.mp h2 with ⟨t', ht', h3⟩
  by_cases hts : (t' == s') = true
  · rw [if_pos hts] at h3
    cases h3
  · rw [if_neg (by simp [hts])] at h3
    rcases List.mem_map.mp h3 with ⟨c', hc', he⟩
    rcases List.mem_filter.mp hc' with ⟨hcm, hcond⟩
    rw [Prod.mk.injEq, Prod.mk.injEq, Prod.mk.injEq] at he
    obtain ⟨h1, h2', h3', h4'⟩ := he
    subst h1; subst h2'; subst h3'; subst h4'
    rw [Bool.not_eq_true', Bool.or_eq_false_iff, beq_eq_false_iff_ne,
      beq_eq_false_iff_ne] at hcond
    refine ⟨rfl, hs', ht', hcm, ?_, hcond.1, hcond.2⟩
    exact fun he => hts (beq_iff_eq.mpr he)

/-- C6: every trial of the built fake-stimuli corpus has its four roles
pairwise distinct: the anchor differs from each match by the match
predicates, and the trial loop skips every repetition among shape, texture
and color matches. -/
theorem C6_trial_pairwise_distinct :
    ∀ (stims : List (String × FRec)) (k : String) (rec : FTrialRec)
      (x s t c : String),
      (k, rec) ∈ fTrialsByImage stims → (x, s, t, c) ∈ rec.trials →
      x = k ∧ s ≠ k ∧ t ≠ k ∧ c ≠ k ∧ s ≠ t ∧ s ≠ c ∧ t ≠ c := by
  intro stims k rec x s t c hk ht
  unfold fTrialsByImage at hk
  rcases List.mem_map.mp hk with ⟨k', hk', he⟩
  rw [Prod.mk.injEq] at he
  obtain ⟨he1, he2⟩ := he
  rw [← he2, he1] at ht
  obtain ⟨hx, hs, htm, hc, hts, hct, hcs⟩ := mem_fAnchor_trials ht
  have hsne : s ≠ k :=
    (fShapePred_iff.mp (mem_fAnchor_shapeMatches.mp hs).2).elim
      (fun ra h => h.elim (fun rb h => h.2.2.1))
  have htne : t ≠ k :=
    (fTexturePred_iff.mp (mem_fAnchor_textureMatches.mp htm).2).elim
      (fun ra h => h.elim (fun rb h => h.2.2.1))
  have hcne : c ≠ k :=
    (fColorPred_iff.mp (mem_fAnchor_colorMatches.mp hc).2).elim
      (fun ra h => h.elim (fun rb h => h.2.2.1))
  exact ⟨hx, hsne, htne, hcne, Ne.symm hts, Ne.symm hcs, Ne.symm hct⟩

/-- Witness for `C6_trial_pairwise_distinct` at a four-stimulus fake index
whose single trial uses four distinct images. -/
theorem C6_witness :
    ("s1_t1_c1.png" : String) = "s1_t1_c1.png" ∧
      ("s1_t2_c2.png" : String) ≠ "s1_t1_c1.png" ∧
      ("s2_t1_c2.png" : String) ≠ "s1_t1_c1.png" ∧
      ("s2_t2_c1.png" : String) ≠ "s1_t1_c1.png" ∧
      ("s1_t2_c2.png" : String) ≠ "s2_t1_c2.png" ∧
      ("s1_t2_c2.png" : String) ≠ "s2_t2_c1.png" ∧
      ("s2_t1_c2.png" : String) ≠ "s2_t2_c1.png" :=
  C6_trial_pairwise_distinct
    (fBuild "stimuli-shape/fake"
      ["s1_t1_c1.png", "s1_t2_c2.png", "s2_t1_c2.png", "s2_t2_c1.png"]).1
    "s1_t1_c1.png"
    (fAnchor
      (fBuild "stimuli-shape/fake"
        ["s1_t1_c1.png", "s1_t2_c2.png", "s2_t1_c2.png", "s2_t2_c1.png"]).1
      "s1_t1_c1.png")
    "s1_t1_c1.png" "s1_t2_c2.png" "s2_t1_c2.png" "s2_t2_c1.png"
    (by decide) (by decide)

/-- C10: over any fake index, each of the three match relations of the
built trial structure is symmetric — the matched attribute agrees and the
other two disagree, all symmetric comparisons. -/
theorem C10_match_symmetry :
    ∀ (stims : List (String × FRec)) (a b : String),
      a ∈ dkeys stims → b ∈ dkeys stims →
      ((b ∈ (fAnchor stims a).shapeMatches ↔
          a ∈ (fAnchor stims b).shapeMatches) ∧
        (b ∈ (fAnchor stims a).textureMatches ↔
          a ∈ (fAnchor stims b).textureMatches) ∧
        (b ∈ (fAnchor stims a).colorMatches ↔
          a ∈ (fAnchor stims b).colorMatches)) := by
  intro stims a b ha hb
  refine ⟨?_, ?_, ?_⟩
  · rw [mem_fAnchor_shapeMatches, mem_fAnchor_shapeMatches]
    constructor
    · rintro ⟨_, hp⟩; exact ⟨ha, fShapePred_symm.mp hp⟩
    · rintro ⟨_, hp⟩; exact ⟨hb, fShapePred_symm.mpr hp⟩
  · rw [mem_fAnchor_textureMatches, mem_fAnchor_textureMatches]
    constructor
    · rintro ⟨_, hp⟩; exact ⟨ha, fTexturePred_symm.mp hp⟩
    · rintro ⟨_, hp⟩; exact ⟨hb, fTexturePred_symm.mpr hp⟩
  · rw [mem_fAnchor_colorMatches, mem_fAnchor_colorMatches]
    constructor
    · rintro ⟨_, hp⟩; exact ⟨ha, fColorPred_symm.mp hp⟩
    · rintro ⟨_, hp⟩; exact ⟨hb, fColorPred_symm.mpr hp⟩

/-- Witness for `C10_match_symmetry` on a two-stimulus index in which the
two images are shape matches of each other. -/
theorem C10_witness :
    ("s1_t2_c2.png" ∈
        (fAnchor [("s1_t1_c1.png", ⟨"s1", "t1", "c1", "d1"⟩),
          ("s1_t2_c2.png", ⟨"s1", "t2", "c2", "d2"⟩)] "s1_t1_c1.png").shapeMatches ↔
      "s1_t1_c1.png" ∈
        (fAnchor [("s1_t1_c1.png", ⟨"s1", "t1", "c1", "d1"⟩),
          ("s1_t2_c2.png", ⟨"s1", "t2", "c2", "d2"⟩)] "s1_t2_c2.png").shapeMatches) ∧
      ("s1_t2_c2.png" ∈
        (fAnchor [("s1_t1_c1.png", ⟨"s1", "t1", "c1", "d1"⟩),
          ("s1_t2_c2.png", ⟨"s1", "t2", "c2", "d2"⟩)] "s1_t1_c1.png").textureMatches ↔
      "s1_t1_c1.png" ∈
        (fAnchor [("s1_t1_c1.png", ⟨"s1", "t1", "c1", "d1"⟩),
          ("s1_t2_c2.png", ⟨"s1", "t2", "c2", "d2"⟩)] "s1_t2_c2.png").textureMatches) ∧
      ("s1_t2_c2.png" ∈
        (fAnchor [("s1_t1_c1.png", ⟨"s1", "t1", "c1", "d1"⟩),
          ("s1_t2_c2.png", ⟨"s1", "t2", "c2", "d2"⟩)] "s1_t1_c1.png").colorMatches ↔
      "s1_t1_c1.png" ∈
        (fAnchor [("s1_t1_c1.png", ⟨"s1", "t1", "c1", "d1"⟩),
          ("s1_t2_c2.png", ⟨"s1", "t2", "c2", "d2"⟩)] "s1_t2_c2.png").colorMatches) :=
  C10_match_symmetry
    [("s1_t1_c1.png", ⟨"s1", "t1", "c1", "d1"⟩),
      ("s1_t2_c2.png", ⟨"s1", "t2", "c2", "d2"⟩)]
    "s1_t1_c1.png" "s1_t2_c2.png" (by decide) (by decide)

/-! ## Tuple counting -/

theorem filter_length_partition {α : Type} (p : α → Bool) (l : List α) :
    (l.filter p).length + (l.filter (fun x => !(p x))).length = l.length := by
  induction l with
  | nil => rfl
  | cons x xs ih =>
    cases hx : p x <;> simp [List.filter_cons, hx] <;> omega

theorem gTriplets_length (image : String) (sm tm : List String) :
    (sm.flatMap (fun s => tm.map (fun t => (image, s, t)))).length =
      sm.length * tm.length := by
  induction sm with
  | nil => simp
  | cons s sm ih =>
    simp only [List.flatMap_cons, List.length_append, List.length_map, ih,
      List.length_cons]
    ring

theorem fCartProd_inner_length (s : String) (tm cm : List String) :
    (tm.flatMap (fun t => cm.map (fun c => (s, t, c)))).length =
      tm.length * cm.length := by
  induction tm with
  | nil => simp
  | cons t tm ih =>
    simp only [List.flatMap_cons, List.length_append, List.length_map, ih,
      List.length_cons]
    ring

theorem fCartProd_length (sm tm cm : List String) :
    (fCartProd sm tm cm).length = sm.length * tm.length * cm.length := by
  unfold fCartProd
  induction sm with
  | nil => simp
  | cons s sm ih =>
    simp only [List.flatMap_cons, List.length_append, ih,
      fCartProd_inner_length, List.length_cons]
    ring

theorem fGood_filter_nil (s t : String) (cm : List String)
    (hts : (t == s) = true) :
    (cm.map (fun c => (s, t, c))).filter (fun q => !(fDistinctFail q)) = [] := by
  induction cm with
  | nil => rfl
  | cons c cm ih =>
    simp only [List.map_cons, List.filter_cons, fDistinctFail, hts,
      Bool.true_or, Bool.not_true, Bool.false_eq_true, if_false]
    exact ih

theorem fGood_filter_cons (image s t : String) (cm : List String)
    (hts : (t == s) = false) :
    (((cm.map (fun c => (s, t, c))).filter (fun q => !(fDistinctFail q))).map
        (fun q => (image, q.1, q.2.1, q.2.2))) =
      (cm.filter (fun c => !(c == t || c == s))).map
        (fun c => (image, s, t, c)) := by
  induction cm with
  | nil => rfl
  | cons c cm ih =>
    have hval : fDistinctFail (s, t, c) = (c == t || c == s) := by
      simp [fDistinctFail, hts]
    simp only [List.map_cons, List.filter_cons, hval]
    cases hc : (c == t || c == s)
    · simp only [Bool.not_false, if_true, List.map_cons, ih]
    · simp only [Bool.not_true, Bool.false_eq_true, if_false, ih]

theorem fTrials_inner_eq (image s : String) (tm cm : List String) :
    (tm.flatMap (fun t =>
        if t == s then []
        else
          (cm.filter (fun c => !(c == t || c == s))).map
            (fun c => (image, s, t, c)))) =
      ((tm.flatMap (fun t => cm.map (fun c => (s, t, c)))).filter
          (fun q => !(fDistinctFail q))).map
        (fun q => (image, q.1, q.2.1, q.2.2)) := by
  induction tm with
  | nil => rfl
  | cons t tm ih =>
    simp only [List.flatMap_cons, List.filter_append, List.map_append]
    rw [ih]
    by_cases hts : (t == s) = true
    · rw [if_pos hts, fGood_filter_nil s t cm hts, List.map_nil]
    · have hts' : (t == s) = false := Bool.not_eq_true _ ▸ hts
      rw [if_neg hts, fGood_filter_cons image s t cm hts']

theorem fTrials_eq_good_product (image : String) (sm tm cm : List String) :
    (sm.flatMap (fun s =>
        tm.flatMap (fun t =>
          if t == s then []
          else
            (cm.filter (fun c => !(c == t || c == s))).map
              (fun c => (image, s, t, c))))) =
      ((fCartProd sm tm cm).filter (fun q => !(fDistinctFail q))).map
        (fun q => (image, q.1, q.2.1, q.2.2)) := by
  unfold fCartProd
  induction sm with
  | nil => rfl
  | cons s sm ih =>
    simp only [List.flatMap_cons, List.filter_append, List.map_append]
    rw [ih, fTrials_inner_eq]

theorem fAnchor_trials_length (stims : List (String × FRec)) (image : String) :
    (fAnchor stims image).trials.length =
      (fAnchor stims image).shapeMatches.length *
          (fAnchor stims image).textureMatches.length *
          (fAnchor stims image).colorMatches.length -
        fDroppedCount (fAnchor stims image).shapeMatches
          (fAnchor stims image).textureMatches
          (fAnchor stims image).colorMatches := by
  have he : (fAnchor stims image).trials =
      ((fCartProd (fAnchor stims image).shapeMatches
          (fAnchor stims image).textureMatches
          (fAnchor stims image).colorMatches).filter
        (fun q => !(fDistinctFail q))).map
        (fun q => (image, q.1, q.2.1, q.2.2)) :=
    fTrials_eq_good_product image _ _ _
  rw [he, List.length_map]
  have hpart := filter_length_partition fDistinctFail
    (fCartProd (fAnchor stims image).shapeMatches
      (fAnchor stims image).textureMatches
      (fAnchor stims image).colorMatches)
  rw [← fCartProd_length (fAnchor stims image).shapeMatches
    (fAnchor stims image).textureMatches
    (fAnchor stims image).colorMatches]
  unfold fDroppedCount
  omega

/-- C7: the tuple totals in closed form.  The style-transfer corpus has no
distinctness filter, so nothing is dropped and the total is exactly the
sum over anchors of `|M_shape| · |M_texture|`; the fake corpus total is
the sum over anchors of `|M_shape| · |M_texture| · |M_color|` minus
exactly the product tuples failing pairwise distinctness of the three
match roles. -/
theorem C7_tuple_counts :
    (∀ storage : List GStim,
      (gAllTriplets storage).length =
        ((gTripletsByImage storage).map
          (fun p => p.2.shapeMatches.length * p.2.textureMatches.length)).sum) ∧
    (∀ stims : List (String × FRec),
      (fAllTrials stims).length =
        ((fTrialsByImage stims).map
          (fun p =>
            p.2.shapeMatches.length * p.2.textureMatches.length *
                p.2.colorMatches.length -
              fDroppedCount p.2.shapeMatches p.2.textureMatches
                p.2.colorMatches)).sum) := by
  constructor
  · intro storage
    unfold gAllTriplets
    rw [List.length_flatMap]
    refine congrArg List.sum (List.map_congr_left ?_)
    intro p hp
    unfold gTripletsByImage at hp
    rcases List.mem_map.mp hp with ⟨q, hq, he⟩
    rw [← he]
    simp only [Function.comp_apply, gAnchor]
    exact gTriplets_length q.1 _ _
  · intro stims
    unfold fAllTrials
    rw [List.length_flatMap]
    refine congrArg List.sum (List.map_congr_left ?_)
    intro p hp
    unfold fTrialsByImage at hp
    rcases List.mem_map.mp hp with ⟨k, hk, he⟩
    rw [← he]
    simp only [Function.comp_apply]
    exact fAnchor_trials_length stims k

/-! ## The code-point order on strings used by Python `sorted` -/

theorem lexLe_cons_iff {x y : Char} {xs ys : List Char} :
    lexLe (x :: xs) (y :: ys) = true ↔
      x < y ∨ (¬x < y ∧ ¬y < x ∧ lexLe xs ys = true) := by
  by_cases hxy : x < y
  · simp [lexLe, hxy]
  · by_cases hyx : y < x
    · simp [lexLe, hxy, hyx]
    · simp [lexLe, hxy, hyx]

theorem lexLe_total : ∀ a b : List Char, lexLe a b = true ∨ lexLe b a = true := by
  intro a
  induction a with
  | nil => intro b; left; rfl
  | cons x xs ih =>
    intro b
    cases b with
    | nil => right; rfl
    | cons y ys =>
      by_cases hxy : x < y
      · left; rw [lexLe_cons_iff]; exact Or.inl hxy
      · by_cases hyx : y < x
        · right; rw [lexLe_cons_iff]; exact Or.inl hyx
        · rcases ih ys with h | h
          · left; rw [lexLe_cons_iff]; exact Or.inr ⟨hxy, hyx, h⟩
          · right; rw [lexLe_cons_iff]; exact Or.inr ⟨hyx, hxy, h⟩

theorem lexLe_trans :
    ∀ a b c : List Char, lexLe a b = true → lexLe b c = true →
      lexLe a c = true := by
  intro a
  induction a with
  | nil => intro b c _ _; rfl
  | cons x xs ih =>
    intro b c h1 h2
    cases b with
    | nil => cases h1
    | cons y ys =>
      cases c with
      | nil => cases h2
      | cons z zs =>
        rw [lexLe_cons_iff] at h1 h2 ⊢
        rcases h1 with h1 | ⟨hxy, hyx, h1⟩
        · rcases h2 with h2 | ⟨hyz, hzy, _⟩
          · exact Or.inl (lt_trans h1 h2)
          · have : y = z := le_antisymm (not_lt.mp hzy) (not_lt.mp hyz)
            exact Or.inl (this ▸ h1)
        · have hxyeq : x = y := le_antisymm (not_lt.mp hyx) (not_lt.mp hxy)
          rcases h2 with h2 | ⟨hyz, hzy, h2⟩
          · exact Or.inl (hxyeq ▸ h2)
          · exact Or.inr ⟨hxyeq ▸ hyz, hxyeq ▸ hzy, ih ys zs h1 h2⟩

theorem lexLe_antisymm :
    ∀ a b : List Char, lexLe a b = true → lexLe b a = true → a = b := by
  intro a
  induction a with
  | nil =>
    intro b h1 h2
    cases b with
    | nil => rfl
    | cons y ys => cases h2
  | cons x xs ih =>
    intro b h1 h2
    cases b with
    | nil => cases h1
    | cons y ys =>
      rw [lexLe_cons_iff] at h1 h2
      rcases h1 with h1 | ⟨hxy, hyx, h1⟩
      · rcases h2 with h2 | ⟨hyx, hxy, _⟩
        · exact absurd h2 (lt_asymm h1)
        · exact absurd h1 hxy
      · rcases h2 with h2 | ⟨_, _, h2⟩
        · exact absurd h2 hyx
        · rw [le_antisymm (not_lt.mp hyx) (not_lt.mp hxy), ih ys h1 h2]

instance : IsTotal String strLe :=
  ⟨fun a b => lexLe_total a.data b.data⟩

instance : IsTrans String strLe :=
  ⟨fun a b c => lexLe_trans a.data b.data c.data⟩

instance : IsAntisymm String strLe :=
  ⟨fun a b h1 h2 => String.ext (lexLe_antisymm a.data b.data h1 h2)⟩

/-- C3 counterexample: `FakeStimTrials.getitem` with an integer argument
reads `list(self.all_stims.keys())[trial]` — insertion order.  Two fake
indices with identical contents but different insertion orders yield
different stimuli at position 0, so this consumer is not
order-independent and performs no sort. -/
theorem C3_counterexample :
    ([("a.png", (⟨"s1", "t1", "c1", "d1"⟩ : FRec)),
        ("b.png", ⟨"s2", "t2", "c2", "d2"⟩)]).Perm
      [("b.png", ⟨"s2", "t2", "c2", "d2"⟩),
        ("a.png", ⟨"s1", "t1", "c1", "d1"⟩)] ∧
    fGetitemName
        [("a.png", ⟨"s1", "t1", "c1", "d1"⟩),
          ("b.png", ⟨"s2", "t2", "c2", "d2"⟩)] 0 = some "a.png" ∧
    fGetitemName
        [("b.png", ⟨"s2", "t2", "c2", "d2"⟩),
          ("a.png", ⟨"s1", "t1", "c1", "d1"⟩)] 0 = some "b.png" := by
  decide

/-- C3 (amended): the style-transfer dataset's `__getitem__` does sort the
key set before positional access, so over any two indices whose key sets
are permutations of one another it selects the same name at every integer
position; the fake-set integer access (`C3_counterexample`) does not share
this property. -/
theorem C3_amended_sorted_access :
    ∀ (d1 d2 : List (String × GRec)) (i : Nat),
      (dkeys d1).Perm (dkeys d2) →
      gGetitemName d1 i = gGetitemName d2 i := by
  intro d1 d2 i h
  unfold gGetitemName pySorted
  have hs : (dkeys d1).insertionSort strLe = (dkeys d2).insertionSort strLe :=
    List.eq_of_perm_of_sorted
      (((List.perm_insertionSort strLe (dkeys d1)).trans h).trans
        (List.perm_insertionSort strLe (dkeys d2)).symm)
      (List.sorted_insertionSort strLe _)
      (List.sorted_insertionSort strLe _)
  rw [hs]

/-- Witness for `C3_amended_sorted_access` on two concrete permuted
indices. -/
theorem C3_witness :
    gGetitemName
        [("b.png", (⟨"s2", "t2", "s2s", "t2s", "d2"⟩ : GRec)),
          ("a.png", ⟨"s1", "t1", "s1s", "t1s", "d1"⟩)] 0 =
      gGetitemName
        [("a.png", (⟨"s1", "t1", "s1s", "t1s", "d1"⟩ : GRec)),
          ("b.png", ⟨"s2", "t2", "s2s", "t2s", "d2"⟩)] 0 :=
  C3_amended_sorted_access
    [("b.png", ⟨"s2", "t2", "s2s", "t2s", "d2"⟩),
      ("a.png", ⟨"s1", "t1", "s1s", "t1s", "d1"⟩)]
    [("a.png", ⟨"s1", "t1", "s1s", "t1s", "d1"⟩),
      ("b.png", ⟨"s2", "t2", "s2s", "t2s", "d2"⟩)]
    0 (by decide)

/-- C8: index and corpus construction consult the persisted file first.  A
present file is returned unchanged — the result ignores storage entirely
(no re-scan) and is whatever the file holds (no re-validation); a missing
file is a cache miss triggering a full rebuild from storage, not an
error. -/
theorem C8_cache_first :
    (∀ (m : List (String × GRec)) (storage : List GStim),
      gLoadOrBuildIndex (some m) storage = m) ∧
    (∀ storage : List GStim,
      gLoadOrBuildIndex none storage = gBuildIndex storage) ∧
    (∀ (m : List (String × FRec)) (fakeDir : String) (storage : List String),
      fLoadOrBuildIndex (some m) fakeDir storage = m) ∧
    (∀ (fakeDir : String) (storage : List String),
      fLoadOrBuildIndex none fakeDir storage = (fBuild fakeDir storage).1) ∧
    (∀ (d : List (String × GCorpusVal)) (storage : List GStim),
      gLoadOrBuildCorpus (some d) storage = gLoadCorpus d) ∧
    (∀ storage : List GStim,
      gLoadOrBuildCorpus none storage =
        (gSaveCorpus (gTripletsByImage storage) (gAllTriplets storage),
          some (GCorpusVal.flat (gAllTriplets storage)))) :=
  ⟨fun _ _ => rfl, fun _ => rfl, fun _ _ _ => rfl, fun _ _ => rfl,
    fun _ _ => rfl, fun _ => rfl⟩

/-- C9: persisting then reloading round-trips.  Saving the corpus appends
the reserved `"all"` key holding the flattened triplet list; reloading
splits exactly that entry off again, recovering every per-anchor record
and the flattened list, provided no anchor is itself named `"all"` (anchor
ids are PNG basenames).  The persisted index reloads to an identical
record for every id. -/
theorem C9_persistence_roundtrip :
    (∀ (tbi : List (String × GTripRec)) (allT : List (String × String × String)),
      "all" ∉ dkeys tbi →
      gLoadCorpus (gSaveCorpus tbi allT) =
        (tbi.map (fun p => (p.1, GCorpusVal.record p.2)),
          some (GCorpusVal.flat allT))) ∧
    (∀ (m : List (String × GRec)) (k : String),
      List.lookup k (gPersistIndex m) = List.lookup k m) := by
  constructor
  · intro tbi allT hall
    unfold gSaveCorpus gLoadCorpus
    have hkeys : "all" ∉ dkeys (tbi.map (fun p => (p.1, GCorpusVal.record p.2))) := by
      simpa [dkeys, List.map_map, Function.comp] using hall
    rw [dinsert_of_not_mem hkeys]
    rw [Prod.mk.injEq]
    constructor
    · rw [List.filter_append]
      have h1 : (tbi.map (fun p => (p.1, GCorpusVal.record p.2))).filter
          (fun p => !(p.1 == "all")) =
          tbi.map (fun p => (p.1, GCorpusVal.record p.2)) := by
        rw [List.filter_eq_self]
        intro p hp
        rw [Bool.not_eq_true', beq_eq_false_iff_ne]
        intro he
        exact hkeys (he ▸ List.mem_map_of_mem Prod.fst hp)
      have h2 : ([("all", GCorpusVal.flat allT)]).filter
          (fun p => !(p.1 == "all")) = [] := by simp
      rw [h1, h2, List.append_nil]
    · rw [lookup_append_right hkeys]
      rfl
  · intro m k
    rfl

/-- Witness for `C9_persistence_roundtrip` at a one-anchor corpus. -/
theorem C9_witness :
    gLoadCorpus
        (gSaveCorpus [("a.png", (⟨[], [], []⟩ : GTripRec))]
          [("a.png", "b.png", "c.png")]) =
      ([("a.png", GCorpusVal.record ⟨[], [], []⟩)],
        some (GCorpusVal.flat [("a.png", "b.png", "c.png")])) :=
  C9_persistence_roundtrip.1 [("a.png", ⟨[], [], []⟩)]
    [("a.png", "b.png", "c.png")] (by decide)
